import Mathlib

/-!
Verification of the `testface` watchface (`src/c/testface.c`).

The watchface formats the wall-clock time and the battery charge into two
static `char` buffers and hands them to two text layers of the host GUI
runtime.  This file embeds

* the C library routines the program calls (`strlen`, `memmove`, `strftime`
  restricted to the conversions used, `snprintf` restricted to `%d` and `%%`),
  acting on byte buffers with explicit bounds,
* the two formatters `update_time` and `update_battery`,
* the handlers `tick_handler`, `battery_callback`, `main_window_load`,
  `main_window_unload` over an explicit state of the host runtime,

and proves the properties of the specification about them.
-/

namespace Testface

/-! ## C strings in fixed-size buffers -/

/-- A `char` array: one natural number (the character code) per byte. -/
abbrev CBuf := List Nat

/-- The character code of a C character constant. -/
def ch (c : Char) : Nat := c.toNat

/-- The text a list of character codes denotes. -/
def text (bs : List Nat) : String := String.mk (bs.map Char.ofNat)

/-- The bytes before the first NUL: the C string a buffer holds. -/
def cstr : CBuf → List Nat
  | [] => []
  | b :: bs => if b = 0 then [] else b :: cstr bs

/-- Function `strlen`: the number of bytes before the first NUL.  A buffer without a
NUL makes `strlen` read past the array; that is `none`. -/
def strlen : CBuf → Option Nat
  | [] => none
  | b :: bs => if b = 0 then some 0 else (strlen bs).map (· + 1)

/-- The indices `memmove (buf + dst, buf + src, n)` reads. -/
def memmove_reads (src n : Nat) : List Nat := List.range' src n

/-- The indices `memmove (buf + dst, buf + src, n)` writes. -/
def memmove_writes (dst n : Nat) : List Nat := List.range' dst n

/-- Function `memmove (buf + dst, buf + src, n)` inside one array: the `n` bytes from
index `src` are copied, as if through a temporary, to index `dst`.  An access
outside the array is `none`. -/
def memmove (buf : CBuf) (dst src n : Nat) : Option CBuf :=
  if (memmove_reads src n).all (· < buf.length) ∧
     (memmove_writes dst n).all (· < buf.length) then
    some ((List.range buf.length).map fun i =>
      if dst ≤ i ∧ i < dst + n then buf.getD (i - dst + src) 0 else buf.getD i 0)
  else none

/-! ## Number rendering -/

/-- The digit loop of an unsigned decimal conversion: emit `n % 10`, continue
with `n / 10` while it is not zero. -/
def utoa_loop : Nat → Nat → List Nat → List Nat
  | 0, _, acc => acc
  | fuel + 1, n, acc =>
    let acc1 := (ch '0' + n % 10) :: acc
    if n / 10 = 0 then acc1 else utoa_loop fuel (n / 10) acc1

/-- Decimal digits of a natural number, most significant first. -/
def utoa (n : Nat) : List Nat := utoa_loop (n + 1) n []

/-- The `%d` conversion of an `int`. -/
def itoa (i : Int) : List Nat :=
  if i < 0 then ch '-' :: utoa i.natAbs else utoa i.natAbs

/-- A number in a field of at least two digits, zero padded (`%02d`). -/
def two_digits (n : Nat) : List Nat :=
  let ds := utoa n
  if ds.length < 2 then ch '0' :: ds else ds

/-! ## `strftime` -/

/-- The fields of `struct tm` the formats of this program read. -/
structure Tm where
  tm_hour : Nat
  tm_min : Nat
deriving DecidableEq

/-- The hour on the 12-hour clock, as `%I` prints it. -/
def hour12 (hour : Nat) : Nat := if hour % 12 = 0 then 12 else hour % 12

/-- Expansion of a `strftime` format; of the conversions only `%H`, `%I`,
`%M` and `%%` are modelled, any other is `none`. -/
def strftime_expand : List Char → Tm → Option (List Nat)
  | [], _ => some []
  | '%' :: 'H' :: rest, t => (strftime_expand rest t).map (two_digits t.tm_hour ++ ·)
  | '%' :: 'I' :: rest, t =>
    (strftime_expand rest t).map (two_digits (hour12 t.tm_hour) ++ ·)
  | '%' :: 'M' :: rest, t => (strftime_expand rest t).map (two_digits t.tm_min ++ ·)
  | '%' :: '%' :: rest, t => (strftime_expand rest t).map (ch '%' :: ·)
  | '%' :: _, _ => none
  | c :: rest, t => (strftime_expand rest t).map (ch c :: ·)

/-- Function `strftime (buf, maxsize, format, t)`: when the expansion and its NUL fit
in `maxsize` bytes they are written at the start of `buf`; otherwise the call
returns 0 and the array contents are unspecified, which is `none`. -/
def strftime (buf : CBuf) (maxsize : Nat) (format : String) (t : Tm) : Option CBuf :=
  match strftime_expand format.toList t with
  | none => none
  | some out =>
    if out.length + 1 ≤ maxsize ∧ maxsize ≤ buf.length then
      some (out ++ 0 :: buf.drop (out.length + 1))
    else none

/-! ## The time formatter -/

/-- Lines 21-29 of `update_time`, acting on its static `buffer` (of
`sizeof "00:00"` = 6 bytes). -/
def update_time_buffer (is24h : Bool) (t : Tm) (buffer : CBuf) : Option CBuf :=
  if is24h then
    strftime buffer buffer.length "%H:%M" t
  else
    match strftime buffer buffer.length "%I:%M" t with
    | none => none
    | some buffer1 =>
      if buffer1.head? = some (ch '0') then
        match strlen buffer1 with
        | none => none
        | some n => memmove buffer1 0 1 n
      else some buffer1

/-- The initial value of `update_time`s static buffer, `"00:00"`. -/
def buffer_init : CBuf := [48, 48, 58, 48, 48, 0]

/-! ## `snprintf` and the battery formatter -/

/-- Expansion of a `printf` format over `int` arguments; of the conversions
only `%d` and `%%` are modelled, any other is `none`. -/
def printf_expand : List Char → List Int → Option (List Nat)
  | [], _ => some []
  | '%' :: 'd' :: rest, a :: args => (printf_expand rest args).map (itoa a ++ ·)
  | '%' :: '%' :: rest, args => (printf_expand rest args).map (ch '%' :: ·)
  | '%' :: _, _ => none
  | c :: rest, args => (printf_expand rest args).map (ch c :: ·)

/-- Function `snprintf (buf, size, format, args)`: at most `size - 1` characters of the
expansion are written, then a NUL; the rest of the expansion is discarded.
A `size` beyond the array is `none`. -/
def snprintf (buf : CBuf) (size : Nat) (format : String) (args : List Int) : Option CBuf :=
  match printf_expand format.toList args with
  | none => none
  | some out =>
    if size ≤ buf.length then
      if size = 0 then some buf
      else
        let w := out.take (size - 1)
        some (w ++ 0 :: buf.drop (w.length + 1))
    else none

/-- The `int` a variadic call receives for an `uint8_t` object: the object
holds its content modulo `2 ^ 8`, and the integer promotion keeps that value.
`uint8_t` is the type `pebble.h` of the Pebble SDK declares for the field
`charge_percent` of `BatteryChargeState`. -/
def uint8_promote (raw : Nat) : Int := Int.ofNat (raw % 2 ^ 8)

/-- Line 39 of `update_battery`, acting on its static `battery_buffer` (8
bytes); `charge_percent` is the promoted value `%d` receives. -/
def update_battery_buffer (charge_percent : Int) (battery_buffer : CBuf) : Option CBuf :=
  snprintf battery_buffer battery_buffer.length "%d%%" [charge_percent]

/-- The initial value of the static `battery_buffer`: eight zero bytes. -/
def battery_buffer_init : CBuf := List.replicate 8 0

/-! ## The host runtime and the program state -/

/-- A rectangle `GRect (x, y, w, h)`. -/
structure GRect where
  x : Int
  y : Int
  w : Int
  h : Int
deriving DecidableEq

/-- The colours the program names, and the default background of a layer. -/
inductive GColor where
  | GColorClear
  | GColorBlack
  | GColorWhite
deriving DecidableEq

/-- Text alignments of a text layer. -/
inductive GTextAlignment where
  | GTextAlignmentLeft
  | GTextAlignmentCenter
  | GTextAlignmentRight
deriving DecidableEq

/-- The font resources the program loads. -/
inductive ResourceId where
  | RESOURCE_ID_NDOT_45
  | RESOURCE_ID_NDOT_20
deriving DecidableEq

/-- The static arrays a text pointer of this program can refer to. -/
inductive StaticBuf where
  | buffer
  | battery_buffer
deriving DecidableEq

/-- A text layer of the host.  `text` is the pointer given to
`text_layer_set_text`: the host keeps the pointer, not a copy. -/
structure TextLayer where
  frame : GRect
  background_color : GColor
  text_color : GColor
  text_alignment : GTextAlignment
  font : Option Nat
  text : Option StaticBuf
deriving DecidableEq

/-- A resource of the view that the host allocates and the program must
release. -/
inductive Resource where
  | text_layer (id : Nat)
  | font (id : Nat)
deriving DecidableEq

/-- What the host reports when a handler runs; `charge_percent` is the
content of the `uint8_t` field of the same name. -/
structure Host where
  now : Tm
  is_24h : Bool
  charge_percent : Nat
  bounds : GRect
  PBL_ROUND : Bool
deriving DecidableEq

/-- The statics of the program together with the host objects they refer to. -/
structure App where
  s_time_layer : Option Nat
  s_battery_layer : Option Nat
  s_custom_font : Option Nat
  s_small_font : Option Nat
  buffer : CBuf
  battery_buffer : CBuf
  next_id : Nat
  live : List Resource
  released : List Resource
  layers : List (Nat × TextLayer)
  fonts : List (Nat × ResourceId)
  children : List Nat
deriving DecidableEq

/-- The program before `init`: null pointers, initialised statics, no host
object. -/
def App.start : App where
  s_time_layer := none
  s_battery_layer := none
  s_custom_font := none
  s_small_font := none
  buffer := buffer_init
  battery_buffer := battery_buffer_init
  next_id := 1
  live := []
  released := []
  layers := []
  fonts := []
  children := []

/-- Function `text_layer_create (frame)`: a fresh layer with the default attributes. -/
def text_layer_create (frame : GRect) (s : App) : Nat × App :=
  (s.next_id,
   { s with
     next_id := s.next_id + 1
     live := Resource.text_layer s.next_id :: s.live
     layers := (s.next_id, TextLayer.mk frame GColor.GColorWhite GColor.GColorBlack
        GTextAlignment.GTextAlignmentLeft none none) :: s.layers })

/-- Apply `f` to the layer a pointer refers to; a pointer to no live layer is
`none`. -/
def with_layer (layer : Option Nat) (f : TextLayer → TextLayer) (s : App) : Option App :=
  match layer with
  | none => none
  | some id =>
    match s.layers.lookup id with
    | none => none
    | some tl => some { s with layers := (id, f tl) :: s.layers.filter (fun p => p.1 != id) }

/-- Function `text_layer_set_background_color`. -/
def text_layer_set_background_color (layer : Option Nat) (c : GColor) (s : App) : Option App :=
  with_layer layer (fun tl => { tl with background_color := c }) s

/-- Function `text_layer_set_text_color`. -/
def text_layer_set_text_color (layer : Option Nat) (c : GColor) (s : App) : Option App :=
  with_layer layer (fun tl => { tl with text_color := c }) s

/-- Function `text_layer_set_text_alignment`. -/
def text_layer_set_text_alignment (layer : Option Nat) (a : GTextAlignment) (s : App) :
    Option App :=
  with_layer layer (fun tl => { tl with text_alignment := a }) s

/-- Function `text_layer_set_font`. -/
def text_layer_set_font (layer : Option Nat) (font : Option Nat) (s : App) : Option App :=
  with_layer layer (fun tl => { tl with font := font }) s

/-- Function `text_layer_set_text`: the layer keeps the pointer. -/
def text_layer_set_text (layer : Option Nat) (p : StaticBuf) (s : App) : Option App :=
  with_layer layer (fun tl => { tl with text := some p }) s

/-- Function `fonts_load_custom_font (resource_get_handle (rid))`: a fresh font. -/
def fonts_load_custom_font (rid : ResourceId) (s : App) : Nat × App :=
  (s.next_id,
   { s with
     next_id := s.next_id + 1
     live := Resource.font s.next_id :: s.live
     fonts := (s.next_id, rid) :: s.fonts })

/-- Function `layer_add_child (window_layer, text_layer_get_layer (layer))`. -/
def layer_add_child (layer : Option Nat) (s : App) : Option App :=
  match layer with
  | none => none
  | some id => some { s with children := s.children ++ [id] }

/-- Function `fonts_unload_custom_font`: the font is released; the call is logged. -/
def fonts_unload_custom_font (font : Option Nat) (s : App) : App :=
  match font with
  | none => s
  | some id =>
    { s with
      live := s.live.filter (fun r => r != Resource.font id)
      released := s.released ++ [Resource.font id]
      fonts := s.fonts.filter (fun p => p.1 != id) }

/-- Function `text_layer_destroy`: the layer is released; the call is logged. -/
def text_layer_destroy (layer : Option Nat) (s : App) : App :=
  match layer with
  | none => s
  | some id =>
    { s with
      live := s.live.filter (fun r => r != Resource.text_layer id)
      released := s.released ++ [Resource.text_layer id]
      layers := s.layers.filter (fun p => p.1 != id)
      children := s.children.filter (fun c => c != id) }

/-! ## The program -/

/-- Function `update_time` of the program: `host.now` is
`localtime (time (NULL))`, `host.is_24h` is `clock_is_24h_style ()`. -/
def update_time (host : Host) (s : App) : Option App :=
  match update_time_buffer host.is_24h host.now s.buffer with
  | none => none
  | some b => text_layer_set_text s.s_time_layer StaticBuf.buffer { s with buffer := b }

/-- Function `update_battery` of the program: `host.charge_percent` is
`battery_state_service_peek ().charge_percent`, an `uint8_t`, promoted to
`int` as the argument of `snprintf`. -/
def update_battery (host : Host) (s : App) : Option App :=
  match update_battery_buffer (uint8_promote host.charge_percent) s.battery_buffer with
  | none => none
  | some b =>
    text_layer_set_text s.s_battery_layer StaticBuf.battery_buffer { s with battery_buffer := b }

/-- Function `battery_callback` of the program; its `state` argument is not
used, `update_battery` asks the host again. -/
def battery_callback (host : Host) (s : App) : Option App :=
  update_battery host s

/-- Function `tick_handler` of the program; its arguments are not used,
`update_time` asks the host again. -/
def tick_handler (host : Host) (s : App) : Option App :=
  update_time host s

/-- Frame of the time layer (lines 59-64). -/
def time_frame (host : Host) : GRect :=
  if host.PBL_ROUND then GRect.mk 0 (Int.tdiv host.bounds.h 2 - 20) host.bounds.w 60
  else GRect.mk 0 60 144 50

/-- Frame of the battery layer (lines 76-81). -/
def battery_frame (host : Host) : GRect :=
  if host.PBL_ROUND then GRect.mk 0 (host.bounds.h - 35) host.bounds.w 30
  else GRect.mk 0 (host.bounds.h - 25) host.bounds.w 20

/-- Function `main_window_load` of the program. -/
def main_window_load (host : Host) (s : App) : Option App := do
  let (tl, s) := text_layer_create (time_frame host) s
  let s := { s with s_time_layer := some tl }
  let s ← text_layer_set_background_color s.s_time_layer GColor.GColorClear s
  let s ← text_layer_set_text_color s.s_time_layer GColor.GColorBlack s
  let s ← text_layer_set_text_alignment s.s_time_layer GTextAlignment.GTextAlignmentCenter s
  let (f, s) := fonts_load_custom_font ResourceId.RESOURCE_ID_NDOT_45 s
  let s := { s with s_custom_font := some f }
  let s ← text_layer_set_font s.s_time_layer s.s_custom_font s
  let s ← layer_add_child s.s_time_layer s
  let (bl, s) := text_layer_create (battery_frame host) s
  let s := { s with s_battery_layer := some bl }
  let s ← text_layer_set_background_color s.s_battery_layer GColor.GColorClear s
  let s ← text_layer_set_text_color s.s_battery_layer GColor.GColorBlack s
  let s ← text_layer_set_text_alignment s.s_battery_layer GTextAlignment.GTextAlignmentCenter s
  let (f, s) := fonts_load_custom_font ResourceId.RESOURCE_ID_NDOT_20 s
  let s := { s with s_small_font := some f }
  let s ← text_layer_set_font s.s_battery_layer s.s_small_font s
  let s ← layer_add_child s.s_battery_layer s
  let s ← update_time host s
  update_battery host s

/-- Function `main_window_unload` of the program. -/
def main_window_unload (s : App) : App :=
  let s := fonts_unload_custom_font s.s_custom_font s
  let s := fonts_unload_custom_font s.s_small_font s
  let s := text_layer_destroy s.s_time_layer s
  text_layer_destroy s.s_battery_layer s

/-! ## What the display shows -/

/-- The static array a pointer refers to. -/
def App.deref (s : App) : StaticBuf → CBuf
  | StaticBuf.buffer => s.buffer
  | StaticBuf.battery_buffer => s.battery_buffer

/-- The text pointer of the layer a pointer refers to. -/
def App.text_ptr (s : App) (layer : Option Nat) : Option StaticBuf :=
  layer.bind fun id => (s.layers.lookup id).bind fun tl => tl.text

/-- The string a layer displays: the C string its text pointer refers to. -/
def App.displayed (s : App) (layer : Option Nat) : Option (List Nat) :=
  (s.text_ptr layer).map fun p => cstr (s.deref p)

/-- The displayed time string. -/
def App.displayed_time (s : App) : Option (List Nat) := s.displayed s.s_time_layer

/-- The displayed battery string. -/
def App.displayed_battery (s : App) : Option (List Nat) := s.displayed s.s_battery_layer

/-- The view is set up: the two layers are distinct live layers, each showing
its own static array, and the arrays have their declared sizes. -/
def App.view_ready (s : App) : Prop :=
  s.text_ptr s.s_time_layer = some StaticBuf.buffer ∧
  s.text_ptr s.s_battery_layer = some StaticBuf.battery_buffer ∧
  s.s_time_layer ≠ s.s_battery_layer ∧
  s.buffer.length = 6 ∧ s.battery_buffer.length = 8

/-- The state `text_layer_set_text` leaves when the layer `i` holds `tl`. -/
def App.set_text (s : App) (i : Nat) (tl : TextLayer) (p : StaticBuf) : App :=
  { s with layers := (i, { tl with text := some p }) :: s.layers.filter (fun q => q.1 != i) }

/-- An example of host readings: 13:30, 12-hour style, 87 percent, a
rectangular 144 by 168 display. -/
def Host.example : Host :=
  Host.mk (Tm.mk 13 30) false 87 (GRect.mk 0 0 144 168) false

/-- An example of a state with the view set up: the start state after
`main_window_load`. -/
def App.example_ready : App :=
  (main_window_load Host.example App.start).getD App.start

/-! ## The specification's strings -/

/-- Two zero-padded decimal digits, in the words of the specification. -/
def spec_pad2 (n : Nat) : String :=
  if n < 10 then "0" ++ toString n else toString n

/-- The 12-hour numeral of an hour, in the words of the specification. -/
def spec_h12 (hour : Nat) : Nat :=
  if hour = 0 ∨ hour = 12 then 12 else if hour ≤ 11 then hour else hour - 12

/-- The time string of the specification. -/
def spec_time (is24h : Bool) (hour minute : Nat) : String :=
  if is24h then spec_pad2 hour ++ ":" ++ spec_pad2 minute
  else toString (spec_h12 hour) ++ ":" ++ spec_pad2 minute

/-- The battery string of the specification. -/
def spec_battery (p : Int) : String := toString p ++ "%"

/-! ## Auxiliary lemmas -/

theorem two_digits_lt (n : Nat) (h : n < 100) :
    two_digits n = [48 + n / 10, 48 + n % 10] := by
  interval_cases n <;> rfl

theorem strftime_expand_HM (t : Tm) :
    strftime_expand ['%', 'H', ':', '%', 'M'] t
      = some (two_digits t.tm_hour ++ 58 :: two_digits t.tm_min) := by
  have h : strftime_expand ['%', 'H', ':', '%', 'M'] t
      = some (two_digits t.tm_hour ++ 58 :: (two_digits t.tm_min ++ [])) := rfl
  simpa using h

theorem strftime_expand_IM (t : Tm) :
    strftime_expand ['%', 'I', ':', '%', 'M'] t
      = some (two_digits (hour12 t.tm_hour)
          ++ 58 :: two_digits t.tm_min) := by
  have h : strftime_expand ['%', 'I', ':', '%', 'M'] t
      = some (two_digits (hour12 t.tm_hour)
          ++ 58 :: (two_digits t.tm_min ++ [])) := rfl
  simpa using h

theorem utoa_loop_toDigits (f n : Nat) (acc : List Char) :
    utoa_loop f n (acc.map Char.toNat) = (Nat.toDigitsCore 10 f n acc).map Char.toNat := by
  induction f generalizing n acc with
  | zero => rfl
  | succ f ih =>
    have hd : ch '0' + n % 10 = (Nat.digitChar (n % 10)).toNat := by
      have : n % 10 < 10 := Nat.mod_lt _ (by decide)
      interval_cases (n % 10) <;> rfl
    simp only [utoa_loop, Nat.toDigitsCore]
    split
    · simp [hd]
    · rw [hd, ← List.map_cons, ih]

theorem utoa_eq (n : Nat) : utoa n = (Nat.toDigits 10 n).map Char.toNat :=
  utoa_loop_toDigits (n + 1) n []

theorem text_utoa (n : Nat) : text (utoa n) = Nat.repr n := by
  simp [text, utoa_eq, Nat.repr, List.asString, Function.comp_def]

theorem length_six (b : CBuf) (h : b.length = 6) :
    ∃ a0 a1 a2 a3 a4 a5, b = [a0, a1, a2, a3, a4, a5] := by
  match b, h with
  | [a0, a1, a2, a3, a4, a5], _ => exact ⟨a0, a1, a2, a3, a4, a5, rfl⟩

theorem hour12_lt (h : Nat) : hour12 h < 13 := by
  unfold hour12; split <;> omega

theorem hour12_pos (h : Nat) : 0 < hour12 h := by
  unfold hour12; split <;> omega

theorem update_time_buffer_24h (t : Tm) (buffer : CBuf) (hb : buffer.length = 6)
    (hh : t.tm_hour < 24) (hm : t.tm_min < 60) :
    update_time_buffer true t buffer
      = some [48 + t.tm_hour / 10, 48 + t.tm_hour % 10, 58,
              48 + t.tm_min / 10, 48 + t.tm_min % 10, 0] := by
  obtain ⟨a0, a1, a2, a3, a4, a5, rfl⟩ := length_six buffer hb
  simp [update_time_buffer, strftime, strftime_expand_HM,
    two_digits_lt t.tm_hour (by omega), two_digits_lt t.tm_min (by omega)]

theorem update_time_buffer_12h (t : Tm) (buffer : CBuf) (hb : buffer.length = 6)
    (hm : t.tm_min < 60) :
    update_time_buffer false t buffer
      = some (if hour12 t.tm_hour < 10
          then [48 + hour12 t.tm_hour, 58, 48 + t.tm_min / 10, 48 + t.tm_min % 10, 0, 0]
          else [49, 48 + hour12 t.tm_hour % 10, 58,
                48 + t.tm_min / 10, 48 + t.tm_min % 10, 0]) := by
  obtain ⟨a0, a1, a2, a3, a4, a5, rfl⟩ := length_six buffer hb
  have h13 := hour12_lt t.tm_hour
  have h0 := hour12_pos t.tm_hour
  by_cases hlt : hour12 t.tm_hour < 10
  · have hd : hour12 t.tm_hour / 10 = 0 := by omega
    have hr : hour12 t.tm_hour % 10 = hour12 t.tm_hour := by omega
    simp [update_time_buffer, strftime, strftime_expand_IM,
      two_digits_lt (hour12 t.tm_hour) (by omega), two_digits_lt t.tm_min (by omega),
      hlt, hd, hr, ch, strlen, memmove, memmove_reads, memmove_writes, List.range,
      List.range.loop, List.range']
  · have hd : hour12 t.tm_hour / 10 = 1 := by omega
    simp [update_time_buffer, strftime, strftime_expand_IM,
      two_digits_lt (hour12 t.tm_hour) (by omega), two_digits_lt t.tm_min (by omega),
      hlt, hd, ch]

theorem text_append (a b : List Nat) : text (a ++ b) = text a ++ text b := by
  simp [text, String.ext_iff]

theorem text_two_digits (n : Nat) (h : n < 100) :
    text [48 + n / 10, 48 + n % 10] = spec_pad2 n := by
  interval_cases n <;> rfl

theorem utoa_small (n : Nat) (h : n < 10) : utoa n = [48 + n] := by
  interval_cases n <;> rfl

theorem utoa_two (n : Nat) (h1 : 10 ≤ n) (h2 : n < 100) :
    utoa n = [48 + n / 10, 48 + n % 10] := by
  interval_cases n <;> rfl

theorem hour12_eq_spec (h : Nat) (hh : h < 24) : hour12 h = spec_h12 h := by
  unfold hour12 spec_h12
  split_ifs <;> omega

theorem utoa_loop_digit (f n : Nat) (acc : List Nat)
    (hacc : ∀ x ∈ acc, 48 ≤ x ∧ x ≤ 57) :
    ∀ x ∈ utoa_loop f n acc, 48 ≤ x ∧ x ≤ 57 := by
  induction f generalizing n acc with
  | zero => simpa [utoa_loop] using hacc
  | succ f ih =>
    have hd : ∀ x ∈ (ch '0' + n % 10) :: acc, 48 ≤ x ∧ x ≤ 57 := by
      intro x hx
      rcases List.mem_cons.1 hx with rfl | hx
      · have : n % 10 < 10 := Nat.mod_lt _ (by decide)
        simp only [ch, show ('0' : Char).toNat = 48 from rfl]
        omega
      · exact hacc x hx
    simp only [utoa_loop]
    split
    · exact hd
    · exact ih _ _ hd

theorem utoa_digit (n : Nat) : ∀ x ∈ utoa n, 48 ≤ x ∧ x ≤ 57 :=
  utoa_loop_digit (n + 1) n [] (by simp)

theorem itoa_ne_zero (c : Int) : ∀ x ∈ itoa c, x ≠ 0 := by
  intro x hx
  unfold itoa at hx
  split at hx
  · rcases List.mem_cons.1 hx with rfl | hx
    · decide
    · have := utoa_digit _ x hx; omega
  · have := utoa_digit _ x hx; omega

theorem utoa_length (n e : Nat) (he : 0 < e) (hn : n < 10 ^ e) : (utoa n).length ≤ e := by
  have h := Nat.repr_length n e he hn
  simpa [utoa_eq, Nat.repr, List.asString, String.length] using h

theorem text_itoa (c : Int) : text (itoa c) = toString c := by
  cases c with
  | ofNat n =>
    have : ¬ ((Int.ofNat n) < 0) := by simp
    simp only [itoa, this, if_false]
    exact text_utoa n
  | negSucc n =>
    have : (Int.negSucc n) < 0 := Int.negSucc_lt_zero n
    simp only [itoa, this, if_true]
    have h : text (ch '-' :: utoa (Int.negSucc n).natAbs) = "-" ++ text (utoa (n + 1)) := by
      simp [text, String.ext_iff, ch, Int.natAbs]
    rw [h, text_utoa]
    rfl

theorem cstr_append_nul (w rest : List Nat) (hw : ∀ x ∈ w, x ≠ 0) :
    cstr (w ++ 0 :: rest) = w := by
  induction w with
  | nil => simp [cstr]
  | cons a w ih =>
    have ha : a ≠ 0 := hw a (by simp)
    have ih2 := ih (fun x hx => hw x (by simp [hx]))
    simp only [List.cons_append, cstr, ha, if_false]
    exact congrArg (a :: ·) ih2

theorem printf_expand_d (c : Int) :
    printf_expand ['%', 'd', '%', '%'] [c] = some (itoa c ++ [37]) := rfl

theorem length_eight (b : CBuf) (h : b.length = 8) :
    ∃ a0 a1 a2 a3 a4 a5 a6 a7, b = [a0, a1, a2, a3, a4, a5, a6, a7] := by
  match b, h with
  | [a0, a1, a2, a3, a4, a5, a6, a7], _ => exact ⟨a0, a1, a2, a3, a4, a5, a6, a7, rfl⟩

theorem update_battery_buffer_eq (c : Int) (buf : CBuf) (hb : buf.length = 8) :
    update_battery_buffer c buf
      = some ((itoa c ++ [37]).take 7
          ++ 0 :: buf.drop (((itoa c ++ [37]).take 7).length + 1)) := by
  simp [update_battery_buffer, snprintf, printf_expand_d, hb]

theorem update_battery_buffer_cstr (c : Int) (buf : CBuf) (hb : buf.length = 8) :
    (update_battery_buffer c buf).map cstr = some ((itoa c ++ [37]).take 7) := by
  rw [update_battery_buffer_eq c buf hb, Option.map_some']
  congr 1
  apply cstr_append_nul
  intro x hx
  have hx2 := List.mem_of_mem_take hx
  rcases List.mem_append.1 hx2 with h | h
  · exact itoa_ne_zero c x h
  · simp at h; omega

theorem itoa_length (c : Int) (h1 : -99999 ≤ c) (h2 : c ≤ 999999) : (itoa c).length ≤ 6 := by
  unfold itoa
  split
  · have : (utoa c.natAbs).length ≤ 5 := utoa_length _ 5 (by decide) (by norm_num; omega)
    simp; omega
  · exact utoa_length _ 6 (by decide) (by norm_num; omega)

theorem cstr_24h (h m : Nat) :
    cstr [48 + h / 10, 48 + h % 10, 58, 48 + m / 10, 48 + m % 10, 0]
      = [48 + h / 10, 48 + h % 10, 58, 48 + m / 10, 48 + m % 10] := by
  simp [cstr]

theorem text_24h (h m : Nat) (hh : h < 100) (hm : m < 100) :
    text [48 + h / 10, 48 + h % 10, 58, 48 + m / 10, 48 + m % 10]
      = spec_pad2 h ++ ":" ++ spec_pad2 m := by
  have e : [48 + h / 10, 48 + h % 10, 58, 48 + m / 10, 48 + m % 10]
      = [48 + h / 10, 48 + h % 10] ++ ([58] ++ [48 + m / 10, 48 + m % 10]) := rfl
  rw [e, text_append, text_append, text_two_digits _ hh, text_two_digits _ hm,
    String.append_assoc]
  rfl

theorem cstr_12h (h m : Nat) (h0 : 0 < h) (h13 : h < 13) :
    cstr (if h < 10 then [48 + h, 58, 48 + m / 10, 48 + m % 10, 0, 0]
          else [49, 48 + h % 10, 58, 48 + m / 10, 48 + m % 10, 0])
      = utoa h ++ [58, 48 + m / 10, 48 + m % 10] := by
  split
  · rw [utoa_small h (by omega)]; simp [cstr]
  · rw [utoa_two h (by omega) (by omega)]
    have : h / 10 = 1 := by omega
    simp [cstr, this]

theorem text_time_tail (m : Nat) (hm : m < 60) :
    text [58, 48 + m / 10, 48 + m % 10] = ":" ++ spec_pad2 m := by
  have e : [58, 48 + m / 10, 48 + m % 10] = [58] ++ [48 + m / 10, 48 + m % 10] := rfl
  rw [e, text_append, text_two_digits _ (by omega)]
  rfl

theorem utoa_head (n : Nat) (h0 : 0 < n) (h : n < 100) : (utoa n).head? ≠ some 48 := by
  interval_cases n <;> decide

theorem text_12h (hour m : Nat) (hh : hour < 24) (hm : m < 60) :
    text (utoa (hour12 hour) ++ [58, 48 + m / 10, 48 + m % 10])
      = toString (spec_h12 hour) ++ ":" ++ spec_pad2 m := by
  rw [text_append, text_utoa, text_time_tail _ hm, hour12_eq_spec hour hh,
    String.append_assoc]
  rfl

theorem update_time_buffer_text (is24h : Bool) (t : Tm) (buffer : CBuf)
    (hb : buffer.length = 6) (hh : t.tm_hour < 24) (hm : t.tm_min < 60) :
    ∃ b, update_time_buffer is24h t buffer = some b ∧ b.length = 6 ∧
      text (cstr b) = spec_time is24h t.tm_hour t.tm_min := by
  cases is24h
  · refine ⟨_, update_time_buffer_12h t buffer hb hm, by split <;> rfl, ?_⟩
    rw [cstr_12h _ _ (hour12_pos _) (hour12_lt _), text_12h _ _ hh hm]
    rfl
  · refine ⟨_, update_time_buffer_24h t buffer hb hh hm, rfl, ?_⟩
    rw [cstr_24h, text_24h _ _ (by omega) (by omega)]
    rfl

/-! ## The claims about the formatters -/

/-- C1: with the 24-hour preference on, for every hour below 24 and minute
below 60 `update_time` leaves in its buffer a string of exactly 5 characters:
the two zero-padded decimal digits of the hour, a colon, the two zero-padded
decimal digits of the minute; the leading zero stays. -/
theorem update_time_24h_format (t : Tm) (buffer : CBuf) (hb : buffer.length = 6)
    (hh : t.tm_hour < 24) (hm : t.tm_min < 60) :
    ∃ b, update_time_buffer true t buffer = some b ∧
      cstr b = [ch '0' + t.tm_hour / 10, ch '0' + t.tm_hour % 10, ch ':',
                ch '0' + t.tm_min / 10, ch '0' + t.tm_min % 10] ∧
      (cstr b).length = 5 ∧
      text (cstr b) = spec_pad2 t.tm_hour ++ ":" ++ spec_pad2 t.tm_min ∧
      text (cstr b) = spec_time true t.tm_hour t.tm_min ∧
      (update_time_buffer true (Tm.mk 0 5) buffer).map (fun r => text (cstr r)) = some "00:05" ∧
      (update_time_buffer true (Tm.mk 9 0) buffer).map (fun r => text (cstr r)) = some "09:00" := by
  refine ⟨_, update_time_buffer_24h t buffer hb hh hm, ?_⟩
  have ht := text_24h t.tm_hour t.tm_min (by omega) (by omega)
  rw [cstr_24h]
  refine ⟨rfl, rfl, ht, ?_, ?_, ?_⟩
  · rw [ht]; rfl
  · rw [update_time_buffer_24h _ buffer hb (by decide) (by decide)]; rfl
  · rw [update_time_buffer_24h _ buffer hb (by decide) (by decide)]; rfl

/-- Witness of C1: hour 9, minute 0 gives `"09:00"`. -/
theorem update_time_24h_format_witness :
    buffer_init.length = 6 ∧ (9 : Nat) < 24 ∧ (0 : Nat) < 60 ∧
    ∃ b, update_time_buffer true (Tm.mk 9 0) buffer_init = some b ∧
      cstr b = [ch '0' + 9 / 10, ch '0' + 9 % 10, ch ':', ch '0' + 0 / 10, ch '0' + 0 % 10] ∧
      (cstr b).length = 5 ∧
      text (cstr b) = spec_pad2 9 ++ ":" ++ spec_pad2 0 ∧
      text (cstr b) = spec_time true 9 0 ∧
      (update_time_buffer true (Tm.mk 0 5) buffer_init).map (fun r => text (cstr r))
        = some "00:05" ∧
      (update_time_buffer true (Tm.mk 9 0) buffer_init).map (fun r => text (cstr r))
        = some "09:00" :=
  ⟨rfl, by decide, by decide,
    update_time_24h_format (Tm.mk 9 0) buffer_init rfl (by decide) (by decide)⟩

/-- C2: with the 24-hour preference off, for every hour below 24 and minute
below 60 the string `update_time` leaves is the unpadded decimal numeral of
`h12`, a colon, and the two zero-padded digits of the minute, where `h12` is
12 for hour 0 or 12, the hour for 1..11 and the hour minus 12 for 13..23; the
numeral is in 1..12 and the string does not start with the character 0. -/
theorem update_time_12h_format (t : Tm) (buffer : CBuf) (hb : buffer.length = 6)
    (hh : t.tm_hour < 24) (hm : t.tm_min < 60) :
    ∃ b, update_time_buffer false t buffer = some b ∧
      text (cstr b) = toString (spec_h12 t.tm_hour) ++ ":" ++ spec_pad2 t.tm_min ∧
      text (cstr b) = spec_time false t.tm_hour t.tm_min ∧
      1 ≤ spec_h12 t.tm_hour ∧ spec_h12 t.tm_hour ≤ 12 ∧
      (cstr b).head? ≠ some (ch '0') ∧
      (update_time_buffer false (Tm.mk 0 5) buffer).map (fun r => text (cstr r)) = some "12:05" ∧
      (update_time_buffer false (Tm.mk 13 30) buffer).map (fun r => text (cstr r))
        = some "1:30" := by
  refine ⟨_, update_time_buffer_12h t buffer hb hm, ?_⟩
  have h0 := hour12_pos t.tm_hour
  have h13 := hour12_lt t.tm_hour
  have hs := hour12_eq_spec t.tm_hour hh
  rw [cstr_12h _ _ h0 h13]
  have ht := text_12h t.tm_hour t.tm_min hh hm
  refine ⟨ht, ?_, by omega, by omega, ?_, ?_, ?_⟩
  · rw [ht]; rfl
  · have hu := utoa_head (hour12 t.tm_hour) h0 (by omega)
    cases hc : utoa (hour12 t.tm_hour) with
    | nil => simp [ch]
    | cons a l => rw [hc] at hu; simpa using hu
  · rw [update_time_buffer_12h _ buffer hb (by decide)]; rfl
  · rw [update_time_buffer_12h _ buffer hb (by decide)]; rfl

/-- Witness of C2: hour 13, minute 30 gives `"1:30"`. -/
theorem update_time_12h_format_witness :
    buffer_init.length = 6 ∧ (13 : Nat) < 24 ∧ (30 : Nat) < 60 ∧
    ∃ b, update_time_buffer false (Tm.mk 13 30) buffer_init = some b ∧
      text (cstr b) = toString (spec_h12 13) ++ ":" ++ spec_pad2 30 ∧
      text (cstr b) = spec_time false 13 30 ∧
      1 ≤ spec_h12 13 ∧ spec_h12 13 ≤ 12 ∧
      (cstr b).head? ≠ some (ch '0') ∧
      (update_time_buffer false (Tm.mk 0 5) buffer_init).map (fun r => text (cstr r))
        = some "12:05" ∧
      (update_time_buffer false (Tm.mk 13 30) buffer_init).map (fun r => text (cstr r))
        = some "1:30" :=
  ⟨rfl, by decide, by decide,
    update_time_12h_format (Tm.mk 13 30) buffer_init rfl (by decide) (by decide)⟩

theorem update_battery_buffer_some (c : Int) (buf : CBuf) (hb : buf.length = 8) :
    ∃ b, update_battery_buffer c buf = some b ∧
      cstr b = (itoa c ++ [37]).take 7 ∧ b.length = 8 := by
  have h1 := update_battery_buffer_eq c buf hb
  have h2 := update_battery_buffer_cstr c buf hb
  rw [h1, Option.map_some'] at h2
  refine ⟨_, h1, Option.some.inj h2, ?_⟩
  have hl : ((itoa c ++ [37]).take 7).length ≤ 7 := by
    rw [List.length_take]; exact Nat.min_le_left _ _
  simp only [List.length_append, List.length_cons, List.length_drop, hb]
  omega

theorem update_battery_buffer_full (c : Int) (buf : CBuf) (hb : buf.length = 8)
    (h1 : -99999 ≤ c) (h2 : c ≤ 999999) :
    ∃ b, update_battery_buffer c buf = some b ∧
      cstr b = itoa c ++ [37] ∧ b.length = 8 := by
  obtain ⟨b, hb1, hb2, hb3⟩ := update_battery_buffer_some c buf hb
  refine ⟨b, hb1, ?_, hb3⟩
  rw [hb2]
  apply List.take_of_length_le
  have := itoa_length c h1 h2
  simp only [List.length_append, List.length_cons, List.length_nil]
  omega

theorem text_battery (c : Int) : text (itoa c ++ [37]) = spec_battery c := by
  rw [text_append, text_itoa]
  rfl

theorem utoa_head_le (n : Nat) (h0 : 0 < n) (h : n ≤ 100) : (utoa n).head? ≠ some 48 := by
  interval_cases n <;> decide

/-- C3: for every battery percentage from 0 to 100 the string `update_battery`
leaves is the unpadded decimal numeral of the percentage followed by one
percent sign, without leading zero and without space. -/
theorem update_battery_format (p : Int) (battery_buffer : CBuf)
    (hb : battery_buffer.length = 8) (h0 : 0 ≤ p) (h100 : p ≤ 100) :
    ∃ b, update_battery_buffer p battery_buffer = some b ∧
      cstr b = utoa p.toNat ++ [ch '%'] ∧
      text (cstr b) = spec_battery p ∧
      (p ≠ 0 → (cstr b).head? ≠ some (ch '0')) ∧
      ch ' ' ∉ cstr b ∧
      (update_battery_buffer 100 battery_buffer).map (fun r => text (cstr r)) = some "100%" ∧
      (update_battery_buffer 0 battery_buffer).map (fun r => text (cstr r)) = some "0%" ∧
      (update_battery_buffer 7 battery_buffer).map (fun r => text (cstr r)) = some "7%" := by
  obtain ⟨b, hb1, hb2, _⟩ := update_battery_buffer_full p battery_buffer hb (by omega) (by omega)
  have hi : itoa p = utoa p.toNat := by
    have : ¬ p < 0 := by omega
    simp only [itoa, this, if_false]
    congr 1
    omega
  have ex : ∀ c : Int, -99999 ≤ c → c ≤ 999999 →
      (update_battery_buffer c battery_buffer).map (fun r => text (cstr r))
        = some (spec_battery c) := by
    intro c hc1 hc2
    obtain ⟨r, hr1, hr2, _⟩ := update_battery_buffer_full c battery_buffer hb hc1 hc2
    rw [hr1, Option.map_some', hr2, text_battery]
  refine ⟨b, hb1, ?_, ?_, ?_, ?_, ex 100 (by decide) (by decide),
    ex 0 (by decide) (by decide), ex 7 (by decide) (by decide)⟩
  · rw [hb2, hi]; rfl
  · rw [hb2, text_battery]
  · intro hp
    rw [hb2, hi]
    have hu := utoa_head_le p.toNat (by omega) (by omega)
    cases hc : utoa p.toNat with
    | nil => simp [ch]
    | cons a l => rw [hc] at hu; simpa [ch] using hu
  · rw [hb2, hi]
    intro hmem
    rcases List.mem_append.1 hmem with h | h
    · have := utoa_digit _ _ h
      simp [ch] at this
    · simp [ch] at h

/-- Witness of C3: 7 percent gives `"7%"`. -/
theorem update_battery_format_witness :
    battery_buffer_init.length = 8 ∧ (0 : Int) ≤ 7 ∧ (7 : Int) ≤ 100 ∧
    ∃ b, update_battery_buffer 7 battery_buffer_init = some b ∧
      cstr b = utoa (7 : Int).toNat ++ [ch '%'] ∧
      text (cstr b) = spec_battery 7 ∧
      ((7 : Int) ≠ 0 → (cstr b).head? ≠ some (ch '0')) ∧
      ch ' ' ∉ cstr b ∧
      (update_battery_buffer 100 battery_buffer_init).map (fun r => text (cstr r))
        = some "100%" ∧
      (update_battery_buffer 0 battery_buffer_init).map (fun r => text (cstr r))
        = some "0%" ∧
      (update_battery_buffer 7 battery_buffer_init).map (fun r => text (cstr r))
        = some "7%" :=
  ⟨rfl, by decide, by decide,
    update_battery_format 7 battery_buffer_init rfl (by decide) (by decide)⟩

theorem uint8_promote_small (raw : Nat) (h : raw < 256) : uint8_promote raw = (raw : Int) := by
  have e : uint8_promote raw = ((raw % 2 ^ 8 : Nat) : Int) := rfl
  rw [e, Nat.mod_eq_of_lt (by norm_num; exact h)]

theorem update_battery_running (host : Host) (s : App) (hr : s.view_ready) :
    ∃ s1 bb, update_battery host s = some s1 ∧ s1.battery_buffer = bb ∧
      update_battery_buffer (uint8_promote host.charge_percent) s.battery_buffer = some bb := by
  obtain ⟨_, h2, _, _, h5⟩ := hr
  obtain ⟨bb, hbb, _, _⟩ :=
    update_battery_buffer_some (uint8_promote host.charge_percent) s.battery_buffer h5
  cases hj : s.s_battery_layer with
  | none => simp [App.text_ptr, hj] at h2
  | some j =>
    cases hl : s.layers.lookup j with
    | none => simp [App.text_ptr, hj, hl] at h2
    | some tl =>
      refine ⟨App.set_text { s with battery_buffer := bb } j tl StaticBuf.battery_buffer,
        bb, ?_, rfl, hbb⟩
      simp only [update_battery, hbb, text_layer_set_text, with_layer, hj, hl, App.set_text]

/-- C4: every charge value that reaches the battery formatter, also one
outside 0..100, is neither rejected nor clamped nor altered.  The value is
the content of the `uint8_t` field `charge_percent`; for every such value,
every 8-byte prior content of `battery_buffer` and every set-up view,
`update_battery` succeeds and the string it writes into `battery_buffer`
(8 bytes with the terminator) is the full decimal numeral of the value
followed by a percent sign; so 101 gives `101%` and 255 gives `255%`. -/
theorem update_battery_passthrough (host : Host) (s : App) (battery_buffer : CBuf)
    (hb : battery_buffer.length = 8) (hr : s.view_ready)
    (hc : host.charge_percent < 256) :
    uint8_promote host.charge_percent = (host.charge_percent : Int) ∧
    (∃ b, update_battery_buffer (uint8_promote host.charge_percent) battery_buffer = some b ∧
      cstr b = utoa host.charge_percent ++ [ch '%'] ∧
      text (cstr b) = toString host.charge_percent ++ "%" ∧
      text (cstr b) = spec_battery (host.charge_percent : Int) ∧
      (cstr b).length + 1 ≤ battery_buffer.length) ∧
    (∃ s1, update_battery host s = some s1 ∧
      cstr s1.battery_buffer = utoa host.charge_percent ++ [ch '%'] ∧
      text (cstr s1.battery_buffer) = toString host.charge_percent ++ "%") ∧
    (update_battery_buffer (uint8_promote 101) battery_buffer).map (fun r => text (cstr r))
      = some "101%" ∧
    (update_battery_buffer (uint8_promote 255) battery_buffer).map (fun r => text (cstr r))
      = some "255%" := by
  have hp := uint8_promote_small host.charge_percent hc
  have hi : itoa (host.charge_percent : Int) = utoa host.charge_percent := by
    have : ¬ ((host.charge_percent : Int) < 0) := by omega
    simp only [itoa, this, if_false]
    rfl
  have hlen : (utoa host.charge_percent).length ≤ 3 :=
    utoa_length _ 3 (by decide) (by norm_num; omega)
  have htxt : text (utoa host.charge_percent ++ [ch '%'])
      = toString host.charge_percent ++ "%" := by
    rw [text_append, text_utoa]
    rfl
  have full : ∀ buf : CBuf, buf.length = 8 →
      ∃ b, update_battery_buffer (uint8_promote host.charge_percent) buf = some b ∧
        cstr b = utoa host.charge_percent ++ [ch '%'] := by
    intro buf hbuf
    rw [hp]
    obtain ⟨b, h1, h2, _⟩ := update_battery_buffer_full (host.charge_percent : Int) buf hbuf
      (by omega) (by omega)
    exact ⟨b, h1, by rw [h2, hi]; rfl⟩
  have ex : ∀ c : Int, -99999 ≤ c → c ≤ 999999 →
      (update_battery_buffer c battery_buffer).map (fun r => text (cstr r))
        = some (spec_battery c) := by
    intro c hc1 hc2
    obtain ⟨r, hr1, hr2, _⟩ := update_battery_buffer_full c battery_buffer hb hc1 hc2
    rw [hr1, Option.map_some', hr2, text_battery]
  refine ⟨hp, ?_, ?_, ex _ (by decide) (by decide), ex _ (by decide) (by decide)⟩
  · obtain ⟨b, h1, h2⟩ := full battery_buffer hb
    refine ⟨b, h1, h2, by rw [h2, htxt], ?_, ?_⟩
    · rw [h2, ← hi]; exact text_battery _
    · rw [h2, hb]
      simp only [List.length_append, List.length_cons, List.length_nil]
      omega
  · obtain ⟨s1, bb, hs, hbuf, hbb⟩ := update_battery_running host s hr
    obtain ⟨b, h1, h2⟩ := full s.battery_buffer hr.2.2.2.2
    have e : bb = b := Option.some.inj (hbb.symm.trans h1)
    refine ⟨s1, hs, ?_, ?_⟩
    · rw [hbuf, e, h2]
    · rw [hbuf, e, h2, htxt]

/-- Witness of C4: the charge value 255, outside 0..100, on the loaded view. -/
theorem update_battery_passthrough_witness :
    battery_buffer_init.length = 8 ∧ App.example_ready.view_ready ∧
    (Host.mk (Tm.mk 13 30) false 255 (GRect.mk 0 0 144 168) false).charge_percent < 256 ∧
    (uint8_promote (Host.mk (Tm.mk 13 30) false 255 (GRect.mk 0 0 144 168) false).charge_percent
        = (255 : Int) ∧
    (∃ b, update_battery_buffer (uint8_promote 255) battery_buffer_init = some b ∧
      cstr b = utoa 255 ++ [ch '%'] ∧
      text (cstr b) = toString 255 ++ "%" ∧
      text (cstr b) = spec_battery 255 ∧
      (cstr b).length + 1 ≤ battery_buffer_init.length) ∧
    (∃ s1, update_battery (Host.mk (Tm.mk 13 30) false 255 (GRect.mk 0 0 144 168) false)
        App.example_ready = some s1 ∧
      cstr s1.battery_buffer = utoa 255 ++ [ch '%'] ∧
      text (cstr s1.battery_buffer) = toString 255 ++ "%") ∧
    (update_battery_buffer (uint8_promote 101) battery_buffer_init).map
      (fun r => text (cstr r)) = some "101%" ∧
    (update_battery_buffer (uint8_promote 255) battery_buffer_init).map
      (fun r => text (cstr r)) = some "255%") :=
  ⟨rfl, ⟨rfl, rfl, by decide, rfl, rfl⟩, by decide,
    update_battery_passthrough (Host.mk (Tm.mk 13 30) false 255 (GRect.mk 0 0 144 168) false)
      App.example_ready battery_buffer_init rfl ⟨rfl, rfl, by decide, rfl, rfl⟩ (by decide)⟩

theorem strftime_time_fits (is24h : Bool) (t : Tm) (buffer : CBuf) (hb : buffer.length = 6)
    (hh : t.tm_hour < 24) (hm : t.tm_min < 60) :
    ∃ out, strftime_expand (if is24h then "%H:%M" else "%I:%M").toList t = some out ∧
      out.length = 5 ∧
      (strftime buffer buffer.length (if is24h then "%H:%M" else "%I:%M") t).isSome := by
  obtain ⟨a0, a1, a2, a3, a4, a5, rfl⟩ := length_six buffer hb
  have h13 := hour12_lt t.tm_hour
  cases is24h
  · refine ⟨_, strftime_expand_IM t, ?_, ?_⟩
    · simp [two_digits_lt (hour12 t.tm_hour) (by omega), two_digits_lt t.tm_min (by omega)]
    · simp [strftime, strftime_expand_IM,
        two_digits_lt (hour12 t.tm_hour) (by omega), two_digits_lt t.tm_min (by omega)]
  · refine ⟨_, strftime_expand_HM t, ?_, ?_⟩
    · simp [two_digits_lt t.tm_hour (by omega), two_digits_lt t.tm_min (by omega)]
    · simp [strftime, strftime_expand_HM,
        two_digits_lt t.tm_hour (by omega), two_digits_lt t.tm_min (by omega)]

theorem update_time_buffer_some (is24h : Bool) (t : Tm) (buffer : CBuf)
    (hb : buffer.length = 6) (hh : t.tm_hour < 24) (hm : t.tm_min < 60) :
    ∃ b, update_time_buffer is24h t buffer = some b ∧ b.length = 6 ∧
      4 ≤ (cstr b).length ∧ (cstr b).length ≤ 5 ∧
      ∀ buffer2 : CBuf, buffer2.length = 6 → update_time_buffer is24h t buffer2 = some b := by
  cases is24h
  · refine ⟨_, update_time_buffer_12h t buffer hb hm, ?_, ?_, ?_, ?_⟩
    · split <;> rfl
    · split <;> simp [cstr]
    · split <;> simp [cstr]
    · intro buffer2 h2; exact update_time_buffer_12h t buffer2 h2 hm
  · refine ⟨_, update_time_buffer_24h t buffer hb hh hm, rfl, ?_, ?_, ?_⟩
    · simp [cstr]
    · simp [cstr]
    · intro buffer2 h2; exact update_time_buffer_24h t buffer2 h2 hh hm

/-- C5: formatting is total and never truncated on valid readings.  For every
hour below 24, minute below 60 and either value of the 24-hour flag the
expansion `strftime` has to write is 5 characters, so with its terminator it
fits the 6-byte buffer, `strftime` does not fail, and the time string has at
most 5 characters; for every percentage from 0 to 100 the battery string is
the whole expansion, has at most 4 characters and fits the 8-byte buffer. -/
theorem formatting_total (is24h : Bool) (t : Tm) (buffer : CBuf) (p : Int)
    (battery_buffer : CBuf) (hb : buffer.length = 6) (hbb : battery_buffer.length = 8)
    (hh : t.tm_hour < 24) (hm : t.tm_min < 60) (h0 : 0 ≤ p) (h100 : p ≤ 100) :
    (∃ out, strftime_expand (if is24h then "%H:%M" else "%I:%M").toList t = some out ∧
      out.length + 1 ≤ buffer.length ∧
      (strftime buffer buffer.length (if is24h then "%H:%M" else "%I:%M") t).isSome) ∧
    (∃ b, update_time_buffer is24h t buffer = some b ∧
      (cstr b).length ≤ 5 ∧ (cstr b).length + 1 ≤ buffer.length) ∧
    (∃ bb, update_battery_buffer p battery_buffer = some bb ∧
      printf_expand "%d%%".toList [p] = some (cstr bb) ∧
      (cstr bb).length ≤ 4 ∧ (cstr bb).length + 1 ≤ battery_buffer.length) := by
  refine ⟨?_, ?_, ?_⟩
  · obtain ⟨out, h1, h2, h3⟩ := strftime_time_fits is24h t buffer hb hh hm
    exact ⟨out, h1, by omega, h3⟩
  · obtain ⟨b, h1, _, _, h3, _⟩ := update_time_buffer_some is24h t buffer hb hh hm
    exact ⟨b, h1, h3, by omega⟩
  · obtain ⟨bb, h1, h2, _⟩ :=
      update_battery_buffer_full p battery_buffer hbb (by omega) (by omega)
    have hl : (itoa p).length ≤ 3 := by
      have : ¬ p < 0 := by omega
      simp only [itoa, this, if_false]
      exact utoa_length _ 3 (by decide) (by norm_num; omega)
    refine ⟨bb, h1, ?_, ?_, ?_⟩
    · rw [h2]; rfl
    · rw [h2]; simp; omega
    · rw [h2]; simp; omega

/-- Witness of C5: 23:59 in 12-hour mode and 100 percent. -/
theorem formatting_total_witness :
    buffer_init.length = 6 ∧ battery_buffer_init.length = 8 ∧
    (23 : Nat) < 24 ∧ (59 : Nat) < 60 ∧ (0 : Int) ≤ 100 ∧ (100 : Int) ≤ 100 ∧
    ((∃ out, strftime_expand (if false then "%H:%M" else "%I:%M").toList (Tm.mk 23 59)
        = some out ∧
      out.length + 1 ≤ buffer_init.length ∧
      (strftime buffer_init buffer_init.length (if false then "%H:%M" else "%I:%M")
        (Tm.mk 23 59)).isSome) ∧
    (∃ b, update_time_buffer false (Tm.mk 23 59) buffer_init = some b ∧
      (cstr b).length ≤ 5 ∧ (cstr b).length + 1 ≤ buffer_init.length) ∧
    (∃ bb, update_battery_buffer 100 battery_buffer_init = some bb ∧
      printf_expand "%d%%".toList [100] = some (cstr bb) ∧
      (cstr bb).length ≤ 4 ∧ (cstr bb).length + 1 ≤ battery_buffer_init.length)) :=
  ⟨rfl, rfl, by decide, by decide, by decide, by decide,
    formatting_total false (Tm.mk 23 59) buffer_init 100 battery_buffer_init rfl rfl
      (by decide) (by decide) (by decide) (by decide)⟩

/-- C6: formatting the same reading again gives the same output whatever the
static arrays held before.  For a valid time reading and either flag
`update_time` leaves the same 6 bytes for every prior content of its buffer,
also when run on its own output; for every battery reading `update_battery`
leaves the same string for every prior content of `battery_buffer`, also when
run on its own output. -/
theorem formatting_idempotent (is24h : Bool) (t : Tm) (c : Int)
    (prior1 prior2 bprior1 bprior2 : CBuf)
    (h1 : prior1.length = 6) (h2 : prior2.length = 6)
    (h3 : bprior1.length = 8) (h4 : bprior2.length = 8)
    (hh : t.tm_hour < 24) (hm : t.tm_min < 60) :
    (∃ b, update_time_buffer is24h t prior1 = some b ∧
      update_time_buffer is24h t prior2 = some b ∧
      update_time_buffer is24h t b = some b) ∧
    (∃ b1 b2 b3, update_battery_buffer c bprior1 = some b1 ∧
      update_battery_buffer c bprior2 = some b2 ∧
      update_battery_buffer c b1 = some b3 ∧
      cstr b2 = cstr b1 ∧ cstr b3 = cstr b1) := by
  constructor
  · obtain ⟨b, hb1, hb2, _, _, hb3⟩ := update_time_buffer_some is24h t prior1 h1 hh hm
    exact ⟨b, hb1, hb3 prior2 h2, hb3 b hb2⟩
  · obtain ⟨b1, e1, c1, l1⟩ := update_battery_buffer_some c bprior1 h3
    obtain ⟨b2, e2, c2, _⟩ := update_battery_buffer_some c bprior2 h4
    obtain ⟨b3, e3, c3, _⟩ := update_battery_buffer_some c b1 l1
    exact ⟨b1, b2, b3, e1, e2, e3, by rw [c2, c1], by rw [c3, c1]⟩

/-- Witness of C6: 01:30 in 12-hour mode after a 4-character string left by
an earlier strip, against the initial buffer; 87 percent after `100%`. -/
theorem formatting_idempotent_witness :
    ([49, 58, 51, 48, 0, 0] : CBuf).length = 6 ∧ buffer_init.length = 6 ∧
    ([49, 48, 48, 37, 0, 0, 0, 0] : CBuf).length = 8 ∧ battery_buffer_init.length = 8 ∧
    (13 : Nat) < 24 ∧ (30 : Nat) < 60 ∧
    ((∃ b, update_time_buffer false (Tm.mk 13 30) [49, 58, 51, 48, 0, 0] = some b ∧
      update_time_buffer false (Tm.mk 13 30) buffer_init = some b ∧
      update_time_buffer false (Tm.mk 13 30) b = some b) ∧
    (∃ b1 b2 b3, update_battery_buffer 87 [49, 48, 48, 37, 0, 0, 0, 0] = some b1 ∧
      update_battery_buffer 87 battery_buffer_init = some b2 ∧
      update_battery_buffer 87 b1 = some b3 ∧
      cstr b2 = cstr b1 ∧ cstr b3 = cstr b1)) :=
  ⟨rfl, rfl, rfl, rfl, by decide, by decide,
    formatting_idempotent false (Tm.mk 13 30) 87 [49, 58, 51, 48, 0, 0] buffer_init
      [49, 48, 48, 37, 0, 0, 0, 0] battery_buffer_init rfl rfl rfl rfl
      (by decide) (by decide)⟩

theorem hour12_add (h : Nat) : hour12 (h + 12) = hour12 h := by
  unfold hour12
  have : (h + 12) % 12 = h % 12 := by omega
  rw [this]

/-- C7: in 12-hour mode no AM/PM suffix is produced.  For every hour below 24
and minute below 60 the string is the digits of the 12-hour numeral, one
colon and the two minute digits and nothing after them; so an hour below 12
and the hour 12 later give the same string, and hour 0 renders as 12. -/
theorem update_time_12h_no_suffix (hour minute : Nat) (buffer : CBuf)
    (hb : buffer.length = 6) (hh : hour < 24) (hm : minute < 60) :
    (∃ b, update_time_buffer false (Tm.mk hour minute) buffer = some b ∧
      cstr b = utoa (spec_h12 hour)
        ++ [ch ':', ch '0' + minute / 10, ch '0' + minute % 10]) ∧
    (hour < 12 →
      update_time_buffer false (Tm.mk (hour + 12) minute) buffer
        = update_time_buffer false (Tm.mk hour minute) buffer) ∧
    (∃ b, update_time_buffer false (Tm.mk 0 minute) buffer = some b ∧
      cstr b = [ch '1', ch '2', ch ':', ch '0' + minute / 10, ch '0' + minute % 10]) := by
  refine ⟨?_, ?_, ?_⟩
  · refine ⟨_, update_time_buffer_12h (Tm.mk hour minute) buffer hb hm, ?_⟩
    rw [cstr_12h _ _ (hour12_pos hour) (hour12_lt hour), hour12_eq_spec hour hh]
    rfl
  · intro _
    rw [update_time_buffer_12h (Tm.mk (hour + 12) minute) buffer hb hm,
      update_time_buffer_12h (Tm.mk hour minute) buffer hb hm]
    simp only [hour12_add]
  · refine ⟨_, update_time_buffer_12h (Tm.mk 0 minute) buffer hb hm, ?_⟩
    rw [cstr_12h _ _ (hour12_pos 0) (hour12_lt 0)]
    rfl

/-- Witness of C7: 01:30 and 13:30. -/
theorem update_time_12h_no_suffix_witness :
    buffer_init.length = 6 ∧ (1 : Nat) < 24 ∧ (30 : Nat) < 60 ∧
    ((∃ b, update_time_buffer false (Tm.mk 1 30) buffer_init = some b ∧
      cstr b = utoa (spec_h12 1) ++ [ch ':', ch '0' + 30 / 10, ch '0' + 30 % 10]) ∧
    (1 < 12 →
      update_time_buffer false (Tm.mk (1 + 12) 30) buffer_init
        = update_time_buffer false (Tm.mk 1 30) buffer_init) ∧
    (∃ b, update_time_buffer false (Tm.mk 0 30) buffer_init = some b ∧
      cstr b = [ch '1', ch '2', ch ':', ch '0' + 30 / 10, ch '0' + 30 % 10])) :=
  ⟨rfl, by decide, by decide,
    update_time_12h_no_suffix 1 30 buffer_init rfl (by decide) (by decide)⟩

theorem strftime_IM_eq (t : Tm) (buffer : CBuf) (hb : buffer.length = 6)
    (hm : t.tm_min < 60) :
    strftime buffer buffer.length "%I:%M" t
      = some [48 + hour12 t.tm_hour / 10, 48 + hour12 t.tm_hour % 10, 58,
              48 + t.tm_min / 10, 48 + t.tm_min % 10, 0] := by
  obtain ⟨a0, a1, a2, a3, a4, a5, rfl⟩ := length_six buffer hb
  have h13 := hour12_lt t.tm_hour
  simp [strftime, strftime_expand_IM,
    two_digits_lt (hour12 t.tm_hour) (by omega), two_digits_lt t.tm_min (by omega)]

/-- C10: the leading-zero strip of `update_time` is in bounds and keeps the
string terminated.  After `strftime` wrote its 5-character string into the
6-byte buffer, `strlen` is 5; when the first byte is the character 0,
`memmove (buffer, buffer + 1, 5)` reads the indices 1..5 and writes the
indices 0..4, all below 6, the terminator at index 5 is among the bytes read,
the call succeeds and the buffer then holds the last 4 characters of the
string, terminated; when the first byte is another character the buffer is
left as `strftime` wrote it. -/
theorem strip_in_bounds (t : Tm) (buffer : CBuf) (hb : buffer.length = 6)
    (hh : t.tm_hour < 24) (hm : t.tm_min < 60) :
    ∃ b1, strftime buffer buffer.length "%I:%M" t = some b1 ∧
      b1.length = 6 ∧ strlen b1 = some 5 ∧ (cstr b1).length = 5 ∧
      (b1.head? = some (ch '0') →
        memmove_reads 1 5 = [1, 2, 3, 4, 5] ∧
        memmove_writes 0 5 = [0, 1, 2, 3, 4] ∧
        (∀ i ∈ memmove_reads 1 5 ++ memmove_writes 0 5, i < b1.length) ∧
        b1.get? 5 = some 0 ∧ 5 ∈ memmove_reads 1 5 ∧
        ∃ b2, memmove b1 0 1 5 = some b2 ∧
          update_time_buffer false t buffer = some b2 ∧
          b2.length = 6 ∧ b2.get? 4 = some 0 ∧
          cstr b2 = (cstr b1).drop 1 ∧ (cstr b2).length = 4) ∧
      (b1.head? ≠ some (ch '0') → update_time_buffer false t buffer = some b1) := by
  have _ := hh
  have h13 := hour12_lt t.tm_hour
  have h0 := hour12_pos t.tm_hour
  have hs := strftime_IM_eq t buffer hb hm
  have hu := update_time_buffer_12h t buffer hb hm
  refine ⟨_, hs, rfl, ?_, ?_, ?_, ?_⟩
  · simp [strlen]
  · simp [cstr]
  · intro hz
    have hlt : hour12 t.tm_hour < 10 := by
      simp [ch] at hz
      omega
    have hr : hour12 t.tm_hour % 10 = hour12 t.tm_hour := by omega
    have hd : hour12 t.tm_hour / 10 = 0 := by omega
    rw [if_pos hlt] at hu
    refine ⟨rfl, rfl, ?_, rfl, by decide, _, ?_, hu, rfl, rfl, ?_, ?_⟩
    · intro i hi
      have : i ∈ [1, 2, 3, 4, 5] ++ [0, 1, 2, 3, 4] := hi
      simp at this
      simp
      omega
    · simp [memmove, memmove_reads, memmove_writes, List.range, List.range.loop,
        List.range', hr, hd]
    · simp [cstr, hr]
    · simp [cstr]
  · intro hz
    have hlt : ¬ hour12 t.tm_hour < 10 := by
      intro hlt
      apply hz
      have hd : hour12 t.tm_hour / 10 = 0 := by omega
      simp [ch, hd]
    rw [if_neg hlt] at hu
    rw [hu]
    have hd : hour12 t.tm_hour / 10 = 1 := by omega
    simp [hd]

/-- Witness of C10: 01:30, where the strip happens. -/
theorem strip_in_bounds_witness :
    buffer_init.length = 6 ∧ (1 : Nat) < 24 ∧ (30 : Nat) < 60 ∧
    ∃ b1, strftime buffer_init buffer_init.length "%I:%M" (Tm.mk 1 30) = some b1 ∧
      b1.length = 6 ∧ strlen b1 = some 5 ∧ (cstr b1).length = 5 ∧
      (b1.head? = some (ch '0') →
        memmove_reads 1 5 = [1, 2, 3, 4, 5] ∧
        memmove_writes 0 5 = [0, 1, 2, 3, 4] ∧
        (∀ i ∈ memmove_reads 1 5 ++ memmove_writes 0 5, i < b1.length) ∧
        b1.get? 5 = some 0 ∧ 5 ∈ memmove_reads 1 5 ∧
        ∃ b2, memmove b1 0 1 5 = some b2 ∧
          update_time_buffer false (Tm.mk 1 30) buffer_init = some b2 ∧
          b2.length = 6 ∧ b2.get? 4 = some 0 ∧
          cstr b2 = (cstr b1).drop 1 ∧ (cstr b2).length = 4) ∧
      (b1.head? ≠ some (ch '0') →
        update_time_buffer false (Tm.mk 1 30) buffer_init = some b1) :=
  ⟨rfl, by decide, by decide,
    strip_in_bounds (Tm.mk 1 30) buffer_init rfl (by decide) (by decide)⟩

theorem lookup_filter_ne {α : Type} (l : List (Nat × α)) (i j : Nat) (h : j ≠ i) :
    List.lookup j (l.filter (fun p => p.1 != i)) = List.lookup j l := by
  induction l with
  | nil => rfl
  | cons p l ih =>
    obtain ⟨k, v⟩ := p
    by_cases hk : k = i
    · subst hk
      have e1 : (j == k) = false := by rw [beq_eq_false_iff_ne]; exact h
      simp [List.filter, List.lookup, e1, ih]
    · have e2 : (k != i) = true := by rw [bne_iff_ne]; exact hk
      simp only [List.filter, e2, List.lookup]
      rw [ih]

theorem main_window_load_spec (host : Host) (s : App) (b bb : CBuf)
    (ht : update_time_buffer host.is_24h host.now s.buffer = some b)
    (hbat : update_battery_buffer (uint8_promote host.charge_percent) s.battery_buffer = some bb) :
    ∃ s1, main_window_load host s = some s1 ∧
      s1.s_time_layer = some s.next_id ∧ s1.s_battery_layer = some (s.next_id + 2) ∧
      s1.s_custom_font = some (s.next_id + 1) ∧ s1.s_small_font = some (s.next_id + 3) ∧
      s1.buffer = b ∧ s1.battery_buffer = bb ∧
      s1.live = Resource.font (s.next_id + 3) :: Resource.text_layer (s.next_id + 2) ::
        Resource.font (s.next_id + 1) :: Resource.text_layer s.next_id :: s.live ∧
      s1.released = s.released ∧
      s1.text_ptr s1.s_time_layer = some StaticBuf.buffer ∧
      s1.text_ptr s1.s_battery_layer = some StaticBuf.battery_buffer := by
  have e1 : (s.next_id == s.next_id + 1 + 1) = false := by
    rw [beq_eq_false_iff_ne]; omega
  have e2 : (s.next_id + 1 + 1 == s.next_id) = false := by
    rw [beq_eq_false_iff_ne]; omega
  have e3 : (s.next_id != s.next_id + 1 + 1) = true := by
    rw [bne_iff_ne]; omega
  have e4 : (s.next_id + 1 + 1 != s.next_id) = true := by
    rw [bne_iff_ne]; omega
  simp [main_window_load, text_layer_create, text_layer_set_background_color,
    text_layer_set_text_color, text_layer_set_text_alignment, text_layer_set_font,
    text_layer_set_text, fonts_load_custom_font, layer_add_child, with_layer,
    update_time, update_battery, ht, hbat, List.lookup, List.filter, e1, e2, e3, e4,
    App.text_ptr]

theorem main_window_unload_released (s : App) (a b c d : Nat)
    (h1 : s.s_custom_font = some a) (h2 : s.s_small_font = some b)
    (h3 : s.s_time_layer = some c) (h4 : s.s_battery_layer = some d) :
    (main_window_unload s).released
      = s.released ++ [Resource.font a, Resource.font b,
          Resource.text_layer c, Resource.text_layer d] ∧
    (main_window_unload s).live
      = s.live.filter (fun r => r != Resource.font a && r != Resource.font b &&
          r != Resource.text_layer c && r != Resource.text_layer d) := by
  simp [main_window_unload, fonts_unload_custom_font, text_layer_destroy, h1, h2, h3, h4,
    List.filter_filter]
  congr 1
  funext r
  simp only [Bool.and_assoc, Bool.and_comm, Bool.and_left_comm]

theorem text_ptr_some (s : App) (layer : Option Nat) (p : StaticBuf)
    (h : s.text_ptr layer = some p) :
    ∃ id tl, layer = some id ∧ s.layers.lookup id = some tl ∧ tl.text = some p := by
  cases layer with
  | none => simp [App.text_ptr] at h
  | some id =>
    cases hl : s.layers.lookup id with
    | none => simp [App.text_ptr, hl] at h
    | some tl =>
      refine ⟨id, tl, rfl, hl, ?_⟩
      simpa [App.text_ptr, hl] using h

theorem text_ptr_other (s s1 : App) (i j : Nat) (x : TextLayer) (h : j ≠ i)
    (hl : s1.layers = (i, x) :: s.layers.filter (fun p => p.1 != i)) :
    s1.text_ptr (some j) = s.text_ptr (some j) := by
  have e : (j == i) = false := by rw [beq_eq_false_iff_ne]; exact h
  simp [App.text_ptr, hl, List.lookup, e, lookup_filter_ne _ _ _ h]

theorem text_ptr_self (s1 : App) (i : Nat) (x : TextLayer) (rest : List (Nat × TextLayer))
    (hl : s1.layers = (i, x) :: rest) :
    s1.text_ptr (some i) = x.text := by
  simp [App.text_ptr, hl, List.lookup]

theorem update_time_spec (host : Host) (s : App) (b : CBuf) (hr : s.view_ready)
    (ht : update_time_buffer host.is_24h host.now s.buffer = some b) (hl : b.length = 6) :
    ∃ s1, update_time host s = some s1 ∧
      s1.displayed_time = some (cstr b) ∧
      s1.displayed_battery = s.displayed_battery ∧ s1.view_ready := by
  obtain ⟨h1, h2, h3, h4, h5⟩ := hr
  obtain ⟨i, tl, hi, hli, _⟩ := text_ptr_some s _ _ h1
  obtain ⟨j, tl2, hj, hlj, htj⟩ := text_ptr_some s _ _ h2
  have hne : j ≠ i := by
    intro e; apply h3; rw [hi, hj, e]
  have hs1 : update_time host s
      = some (App.set_text { s with buffer := b } i tl StaticBuf.buffer) := by
    simp only [update_time, ht, text_layer_set_text, with_layer, hi, hli, App.set_text]
  have hpi : (App.set_text { s with buffer := b } i tl StaticBuf.buffer).text_ptr (some i)
      = some StaticBuf.buffer := text_ptr_self _ i _ _ rfl
  have hpj : (App.set_text { s with buffer := b } i tl StaticBuf.buffer).text_ptr (some j)
      = s.text_ptr (some j) := text_ptr_other s _ i j _ hne rfl
  have h2j : s.text_ptr (some j) = some StaticBuf.battery_buffer := by rw [← hj]; exact h2
  have f1 : (App.set_text { s with buffer := b } i tl StaticBuf.buffer).s_time_layer
      = some i := hi
  have f2 : (App.set_text { s with buffer := b } i tl StaticBuf.buffer).s_battery_layer
      = some j := hj
  have f3 : (App.set_text { s with buffer := b } i tl StaticBuf.buffer).buffer = b := rfl
  have f4 : (App.set_text { s with buffer := b } i tl StaticBuf.buffer).battery_buffer
      = s.battery_buffer := rfl
  generalize App.set_text { s with buffer := b } i tl StaticBuf.buffer = s1
    at hs1 hpi hpj f1 f2 f3 f4
  rw [h2j] at hpj
  refine ⟨s1, hs1, ?_, ?_, ?_, ?_, ?_, ?_, ?_⟩
  · simp only [App.displayed_time, App.displayed, f1, hpi, Option.map_some', App.deref, f3]
  · simp only [App.displayed_battery, App.displayed, f2, hpj, hj, h2j, Option.map_some',
      App.deref, f4]
  · rw [f1, hpi]
  · rw [f2, hpj]
  · rw [f1, f2, ← hi, ← hj]; exact h3
  · rw [f3]; exact hl
  · rw [f4]; exact h5

theorem update_battery_spec (host : Host) (s : App) (bb : CBuf) (hr : s.view_ready)
    (ht : update_battery_buffer (uint8_promote host.charge_percent) s.battery_buffer = some bb)
    (hl : bb.length = 8) :
    ∃ s1, update_battery host s = some s1 ∧
      s1.displayed_battery = some (cstr bb) ∧
      s1.displayed_time = s.displayed_time ∧ s1.view_ready := by
  obtain ⟨h1, h2, h3, h4, h5⟩ := hr
  obtain ⟨i, tl, hi, hli, _⟩ := text_ptr_some s _ _ h1
  obtain ⟨j, tl2, hj, hlj, htj⟩ := text_ptr_some s _ _ h2
  have hne : i ≠ j := by
    intro e; apply h3; rw [hi, hj, e]
  have hs1 : update_battery host s
      = some (App.set_text { s with battery_buffer := bb } j tl2 StaticBuf.battery_buffer) := by
    simp only [update_battery, ht, text_layer_set_text, with_layer, hj, hlj, App.set_text]
  have hpj : (App.set_text { s with battery_buffer := bb } j tl2
      StaticBuf.battery_buffer).text_ptr (some j)
      = some StaticBuf.battery_buffer := text_ptr_self _ j _ _ rfl
  have hpi : (App.set_text { s with battery_buffer := bb } j tl2
      StaticBuf.battery_buffer).text_ptr (some i)
      = s.text_ptr (some i) := text_ptr_other s _ j i _ hne rfl
  have h1i : s.text_ptr (some i) = some StaticBuf.buffer := by rw [← hi]; exact h1
  have f1 : (App.set_text { s with battery_buffer := bb } j tl2
      StaticBuf.battery_buffer).s_time_layer = some i := hi
  have f2 : (App.set_text { s with battery_buffer := bb } j tl2
      StaticBuf.battery_buffer).s_battery_layer = some j := hj
  have f3 : (App.set_text { s with battery_buffer := bb } j tl2
      StaticBuf.battery_buffer).buffer = s.buffer := rfl
  have f4 : (App.set_text { s with battery_buffer := bb } j tl2
      StaticBuf.battery_buffer).battery_buffer = bb := rfl
  generalize App.set_text { s with battery_buffer := bb } j tl2 StaticBuf.battery_buffer = s1
    at hs1 hpi hpj f1 f2 f3 f4
  rw [h1i] at hpi
  refine ⟨s1, hs1, ?_, ?_, ?_, ?_, ?_, ?_, ?_⟩
  · simp only [App.displayed_battery, App.displayed, f2, hpj, Option.map_some', App.deref, f4]
  · simp only [App.displayed_time, App.displayed, f1, hpi, hi, h1i, Option.map_some',
      App.deref, f3]
  · rw [f1, hpi]
  · rw [f2, hpj]
  · rw [f1, f2, ← hi, ← hj]; exact h3
  · rw [f3]; exact h4
  · rw [f4]; exact hl

/-! ## The claims about the handlers -/

/-- C8: over the display state (displayed time string, displayed battery
string): `main_window_load` sets both strings to the formatter outputs for the
current readings; `tick_handler` replaces the displayed time string by the
time formatter output and leaves the displayed battery string unchanged;
`battery_callback` replaces the displayed battery string by the battery
formatter output and leaves the displayed time string unchanged. -/
theorem display_lifecycle (host : Host) (s0 s : App)
    (hb0 : s0.buffer.length = 6) (hbb0 : s0.battery_buffer.length = 8)
    (hr : s.view_ready) (hh : host.now.tm_hour < 24) (hm : host.now.tm_min < 60) :
    (∃ s1, main_window_load host s0 = some s1 ∧
      s1.displayed_time = (update_time_buffer host.is_24h host.now s0.buffer).map cstr ∧
      s1.displayed_battery
        = (update_battery_buffer (uint8_promote host.charge_percent)
            s0.battery_buffer).map cstr ∧
      s1.displayed_time.map text
        = some (spec_time host.is_24h host.now.tm_hour host.now.tm_min) ∧
      (0 ≤ uint8_promote host.charge_percent → uint8_promote host.charge_percent ≤ 100 →
        s1.displayed_battery.map text
          = some (spec_battery (uint8_promote host.charge_percent)))) ∧
    (∃ s1, tick_handler host s = some s1 ∧
      s1.displayed_time = (update_time_buffer host.is_24h host.now s.buffer).map cstr ∧
      s1.displayed_time.map text
        = some (spec_time host.is_24h host.now.tm_hour host.now.tm_min) ∧
      s1.displayed_battery = s.displayed_battery) ∧
    (∃ s1, battery_callback host s = some s1 ∧
      s1.displayed_battery
        = (update_battery_buffer (uint8_promote host.charge_percent)
            s.battery_buffer).map cstr ∧
      (0 ≤ uint8_promote host.charge_percent → uint8_promote host.charge_percent ≤ 100 →
        s1.displayed_battery.map text
          = some (spec_battery (uint8_promote host.charge_percent))) ∧
      s1.displayed_time = s.displayed_time) := by
  have batt : ∀ bb : CBuf, cstr bb = (itoa (uint8_promote host.charge_percent) ++ [37]).take 7 →
      0 ≤ (uint8_promote host.charge_percent) → (uint8_promote host.charge_percent) ≤ 100 →
      text (cstr bb) = spec_battery (uint8_promote host.charge_percent) := by
    intro bb hc h0 h100
    have hlen := itoa_length (uint8_promote host.charge_percent) (by omega) (by omega)
    rw [hc, List.take_of_length_le (by simp; omega), text_battery]
  refine ⟨?_, ?_, ?_⟩
  · obtain ⟨b, hb1, _, hb3⟩ := update_time_buffer_text host.is_24h host.now s0.buffer hb0 hh hm
    obtain ⟨bb, hbb1, hbb2, _⟩ := update_battery_buffer_some (uint8_promote host.charge_percent)
      s0.battery_buffer hbb0
    obtain ⟨s1, hs, f1, f2, _, _, f5, f6, _, _, p1, p2⟩ :=
      main_window_load_spec host s0 b bb hb1 hbb1
    have d1 : s1.displayed_time = some (cstr b) := by
      simp only [App.displayed_time, App.displayed, p1, Option.map_some', App.deref, f5]
    have d2 : s1.displayed_battery = some (cstr bb) := by
      simp only [App.displayed_battery, App.displayed, p2, Option.map_some', App.deref, f6]
    refine ⟨s1, hs, ?_, ?_, ?_, ?_⟩
    · rw [d1, hb1]; rfl
    · rw [d2, hbb1]; rfl
    · rw [d1, Option.map_some', hb3]
    · intro h0 h100
      rw [d2, Option.map_some', batt bb hbb2 h0 h100]
  · obtain ⟨b, hb1, hb2, hb3⟩ :=
      update_time_buffer_text host.is_24h host.now s.buffer hr.2.2.2.1 hh hm
    obtain ⟨s1, hs, d1, d2, _⟩ := update_time_spec host s b hr hb1 hb2
    refine ⟨s1, hs, ?_, ?_, d2⟩
    · rw [d1, hb1]; rfl
    · rw [d1, Option.map_some', hb3]
  · obtain ⟨bb, hbb1, hbb2, hbb3⟩ := update_battery_buffer_some (uint8_promote host.charge_percent)
      s.battery_buffer hr.2.2.2.2
    obtain ⟨s1, hs, d1, d2, _⟩ := update_battery_spec host s bb hr hbb1 hbb3
    refine ⟨s1, hs, ?_, ?_, d2⟩
    · rw [d1, hbb1]; rfl
    · intro h0 h100
      rw [d1, Option.map_some', batt bb hbb2 h0 h100]

theorem App.example_ready_view_ready : App.example_ready.view_ready :=
  ⟨rfl, rfl, by decide, rfl, rfl⟩

/-- Witness of C8: the program at start for the load, the loaded view for the
two callbacks, at 13:30 in 12-hour mode with 87 percent. -/
theorem display_lifecycle_witness :
    App.start.buffer.length = 6 ∧ App.start.battery_buffer.length = 8 ∧
    App.example_ready.view_ready ∧
    Host.example.now.tm_hour < 24 ∧ Host.example.now.tm_min < 60 ∧
    ((∃ s1, main_window_load Host.example App.start = some s1 ∧
      s1.displayed_time
        = (update_time_buffer Host.example.is_24h Host.example.now App.start.buffer).map cstr ∧
      s1.displayed_battery
        = (update_battery_buffer (uint8_promote Host.example.charge_percent)
            App.start.battery_buffer).map cstr ∧
      s1.displayed_time.map text
        = some (spec_time Host.example.is_24h Host.example.now.tm_hour
            Host.example.now.tm_min) ∧
      (0 ≤ uint8_promote Host.example.charge_percent →
        uint8_promote Host.example.charge_percent ≤ 100 →
        s1.displayed_battery.map text
          = some (spec_battery (uint8_promote Host.example.charge_percent)))) ∧
    (∃ s1, tick_handler Host.example App.example_ready = some s1 ∧
      s1.displayed_time
        = (update_time_buffer Host.example.is_24h Host.example.now
            App.example_ready.buffer).map cstr ∧
      s1.displayed_time.map text
        = some (spec_time Host.example.is_24h Host.example.now.tm_hour
            Host.example.now.tm_min) ∧
      s1.displayed_battery = App.example_ready.displayed_battery) ∧
    (∃ s1, battery_callback Host.example App.example_ready = some s1 ∧
      s1.displayed_battery
        = (update_battery_buffer (uint8_promote Host.example.charge_percent)
            App.example_ready.battery_buffer).map cstr ∧
      (0 ≤ uint8_promote Host.example.charge_percent →
        uint8_promote Host.example.charge_percent ≤ 100 →
        s1.displayed_battery.map text
          = some (spec_battery (uint8_promote Host.example.charge_percent))) ∧
      s1.displayed_time = App.example_ready.displayed_time)) :=
  ⟨rfl, rfl, App.example_ready_view_ready, by decide, by decide,
    display_lifecycle Host.example App.start App.example_ready rfl rfl
      App.example_ready_view_ready (by decide) (by decide)⟩

/-- C9: over the set of live view resources: `main_window_load` acquires the
time text layer, the large font, the battery text layer and the small font;
`main_window_unload` releases each of these exactly once and nothing else; so
starting from the empty set, load followed by unload returns to the empty
set. -/
theorem load_unload_resources (host : Host) (s : App)
    (hb : s.buffer.length = 6) (hbb : s.battery_buffer.length = 8)
    (hh : host.now.tm_hour < 24) (hm : host.now.tm_min < 60) :
    ∃ s1 acquired freed, main_window_load host s = some s1 ∧
      acquired = [Resource.font (s.next_id + 3), Resource.text_layer (s.next_id + 2),
                  Resource.font (s.next_id + 1), Resource.text_layer s.next_id] ∧
      s1.live = acquired ++ s.live ∧ s1.released = s.released ∧
      (main_window_unload s1).released = s1.released ++ freed ∧
      freed.Nodup ∧ (∀ r, r ∈ freed ↔ r ∈ acquired) ∧
      (∀ r ∈ acquired, r ∉ (main_window_unload s1).live) ∧
      (∀ r ∈ s.live, r ∉ acquired → r ∈ (main_window_unload s1).live) ∧
      (s.live = [] → (main_window_unload s1).live = []) := by
  obtain ⟨b, hb1, _, _⟩ := update_time_buffer_text host.is_24h host.now s.buffer hb hh hm
  obtain ⟨bb, hbb1, _, _⟩ := update_battery_buffer_some (uint8_promote host.charge_percent)
    s.battery_buffer hbb
  obtain ⟨s1, hs, f1, f2, f3, f4, _, _, l1, r1, _, _⟩ :=
    main_window_load_spec host s b bb hb1 hbb1
  obtain ⟨u1, u2⟩ := main_window_unload_released s1 _ _ _ _ f3 f4 f1 f2
  refine ⟨s1, _, _, hs, rfl, l1, r1, u1, ?_, ?_, ?_, ?_, ?_⟩
  · simp
  · intro r
    simp only [List.mem_cons, List.mem_singleton, List.not_mem_nil, or_false]
    tauto
  · intro r hr
    rw [u2]
    simp only [List.mem_cons, List.mem_singleton, List.not_mem_nil, or_false] at hr
    simp only [List.mem_filter, Bool.and_eq_true, bne_iff_ne, not_and]
    rcases hr with rfl | rfl | rfl | rfl <;> simp
  · intro r hr hna
    rw [u2, l1]
    simp only [List.mem_cons, List.mem_singleton, List.not_mem_nil, or_false, not_or] at hna
    simp only [List.mem_filter, Bool.and_eq_true, bne_iff_ne, List.mem_cons]
    exact ⟨Or.inr (Or.inr (Or.inr (Or.inr hr))), ⟨⟨⟨hna.2.2.1, hna.1⟩, hna.2.2.2⟩, hna.2.1⟩⟩
  · intro he
    rw [u2, l1, he]
    simp [List.filter]

/-- Witness of C9: the program at start, where no resource is live. -/
theorem load_unload_resources_witness :
    App.start.buffer.length = 6 ∧ App.start.battery_buffer.length = 8 ∧
    Host.example.now.tm_hour < 24 ∧ Host.example.now.tm_min < 60 ∧
    ∃ s1 acquired freed, main_window_load Host.example App.start = some s1 ∧
      acquired = [Resource.font (App.start.next_id + 3),
                  Resource.text_layer (App.start.next_id + 2),
                  Resource.font (App.start.next_id + 1),
                  Resource.text_layer App.start.next_id] ∧
      s1.live = acquired ++ App.start.live ∧ s1.released = App.start.released ∧
      (main_window_unload s1).released = s1.released ++ freed ∧
      freed.Nodup ∧ (∀ r, r ∈ freed ↔ r ∈ acquired) ∧
      (∀ r ∈ acquired, r ∉ (main_window_unload s1).live) ∧
      (∀ r ∈ App.start.live, r ∉ acquired → r ∈ (main_window_unload s1).live) ∧
      (App.start.live = [] → (main_window_unload s1).live = []) :=
  ⟨rfl, rfl, by decide, by decide,
    load_unload_resources Host.example App.start rfl rfl (by decide) (by decide)⟩

end Testface
